import Mathlib

/-!
# gobank: the transfer engine of `main.go`

A shallow embedding of the account registry (`Bank`), the insertion loop of `LoadAccounts`,
`GetAccount`, `validateTransferRequest` and `ProcessTransfer`, with the order of its two
locks and sequences of calls, followed by the properties proved about them.

Modelling decisions:

* Go's `int` is the 64-bit two's-complement integer: values are `Int`s in
  `[intMin, intMax]` and `+=` / `-=` wrap around through `wrapInt`.
* `Bank.accounts` is a `map[string]*Account`.  The only writers of the map (`LoadAccounts`
  and the test helper `addAccount`) store a freshly allocated account under each key, so each
  key owns its account; the map is an association list from keys to account values, and a
  write through the pointer found under a key is a write to that key's entry.
* `strings.ToLower` belongs to the Go standard library; it is a parameter (`Lowering`).
* The mutexes have no effect on a single sequential call and are left out.
-/

namespace GoBank

/-! ## Machine integers -/

/-- Smallest value of Go's `int` (64 bit). -/
def intMin : Int := -9223372036854775808

/-- Largest value of Go's `int` (64 bit). -/
def intMax : Int := 9223372036854775807

/-- Values that a Go `int` can hold. -/
def IsGoInt (x : Int) : Prop := intMin ≤ x ∧ x ≤ intMax

instance (x : Int) : Decidable (IsGoInt x) := by
  unfold IsGoInt; infer_instance

/-- Two's-complement wrap-around of an exact result into the range of `int`. -/
def wrapInt (x : Int) : Int :=
  (x + 9223372036854775808) % 18446744073709551616 - 9223372036854775808

/-! ## `strings.ToLower` -/

/-- Go's `strings.ToLower`, taken as a parameter: a function normalising a string to its
lower-case form, which is its own lower-case form. -/
structure Lowering where
  toLower : String → String
  idem : ∀ s, toLower (toLower s) = toLower s

/-- Lower-casing of the letters `A`-`Z`, character by character; this is what
`strings.ToLower` computes on ASCII strings. -/
def asciiToLower (s : String) : String := ⟨s.data.map Char.toLower⟩

/-- The ASCII instance of `strings.ToLower`. -/
def asciiLowering : Lowering where
  toLower := asciiToLower
  idem := by
    intro s
    have hc : ∀ c : Char, Char.toLower (Char.toLower c) = Char.toLower c := by
      intro c
      unfold Char.toLower
      simp only []
      by_cases h : c.toNat ≥ 65 ∧ c.toNat ≤ 90
      · rw [if_pos h]
        have h2 : ¬ ((Char.ofNat (c.toNat + 32)).toNat ≥ 65 ∧
            (Char.ofNat (c.toNat + 32)).toNat ≤ 90) := by
          obtain ⟨h1, h3⟩ := h
          generalize c.toNat = n at h1 h3
          interval_cases n <;> decide
        rw [if_neg h2]
      · rw [if_neg h, if_neg h]
    simp [asciiToLower, List.map_map, Function.comp_def, hc]

/-! ## Data model -/

/-- The `Account` struct (its `Mutex` field left out). -/
structure Account where
  Name : String
  Balance : Int
deriving DecidableEq, Repr

/-- The `Bank` struct: the `accounts` map as an association list (its `mutex` left out). -/
structure Bank where
  accounts : List (String × Account)
deriving DecidableEq, Repr

/-- The `TransferRequest` struct. -/
structure TransferRequest where
  From : String
  To : String
  Amount : Int
deriving DecidableEq, Repr

/-- The `TransferResponse` struct. -/
structure TransferResponse where
  From : String
  FromBalance : Int
  To : String
  ToBalance : Int
  Message : String
deriving DecidableEq, Repr

/-- The zero value `TransferResponse{}`. -/
def zeroResponse : TransferResponse :=
  { From := "", FromBalance := 0, To := "", ToBalance := 0, Message := "" }

/-! ## Map primitives -/

/-- Map read `m[k]` with the comma-ok result. -/
def mapGet : List (String × Account) → String → Option Account
  | [], _ => none
  | (k', v) :: rest, k => if k' = k then some v else mapGet rest k

/-- Map write `m[k] = v`: replaces the entry of `k` when there is one, adds one otherwise. -/
def mapSet : List (String × Account) → String → Account → List (String × Account)
  | [], k, v => [(k, v)]
  | (k', v') :: rest, k, v =>
    if k' = k then (k, v) :: rest else (k', v') :: mapSet rest k v

/-- Write of the `Balance` field through the account pointer stored under `k`. -/
def setBalance : List (String × Account) → String → Int → List (String × Account)
  | [], _, _ => []
  | (k', v) :: rest, k, bal =>
    if k' = k then (k', { v with Balance := bal }) :: rest
    else (k', v) :: setBalance rest k bal

/-! ## Operations -/

/-- `Bank.LoadAccounts` from the decoded `accounts` slice on (lines 54-59): the insertion
loop.  Opening the file and decoding its JSON content are left to the caller. -/
def LoadAccounts (L : Lowering) (b : Bank) (accounts : List Account) : Bank :=
  accounts.foldl
    (fun b acc =>
      { accounts := mapSet b.accounts (L.toLower acc.Name)
          { Name := acc.Name, Balance := acc.Balance } })
    b

/-- The test helper `addAccount`. -/
def addAccount (L : Lowering) (b : Bank) (name : String) (balance : Int) : Bank :=
  { accounts := mapSet b.accounts (L.toLower name) { Name := name, Balance := balance } }

/-- `Bank.GetAccount`: `none` stands for the `false` comma-ok result. -/
def GetAccount (L : Lowering) (b : Bank) (name : String) : Option Account :=
  mapGet b.accounts (L.toLower name)

/-- `validateTransferRequest`: returns the request as rewritten through the pointer,
together with the error (`none` for `nil`). -/
def validateTransferRequest (L : Lowering) (b : Bank) (req : TransferRequest) :
    TransferRequest × Option String :=
  let req : TransferRequest := { req with From := L.toLower req.From }
  let req : TransferRequest := { req with To := L.toLower req.To }
  if req.From = req.To then
    (req, some "cannot transfer to the same account")
  else if req.Amount ≤ 0 then
    (req, some "amount must be greater than zero")
  else if (GetAccount L b req.From).isNone then
    (req, some "sender account does not exist")
  else if (GetAccount L b req.To).isNone then
    (req, some "receiver account does not exist")
  else
    (req, none)

/-- `Bank.ProcessTransfer`: the registry after the call, the returned response and the
returned error (`none` for `nil`).  The outer `none` is the run-time panic of dereferencing
a nil account pointer.  `sender` and `receiver` are the accounts stored under two
different keys once validation has passed, so the two balance writes touch two entries. -/
def ProcessTransfer (L : Lowering) (b : Bank) (req : TransferRequest) :
    Option (Bank × TransferResponse × Option String) :=
  match validateTransferRequest L b req with
  | (_, some err) => some (b, zeroResponse, some err)
  | (req, none) =>
    match GetAccount L b req.From, GetAccount L b req.To with
    | some sender, some receiver =>
      if sender.Balance < req.Amount then
        some (b, zeroResponse, some "insufficient funds")
      else
        let senderBalance := wrapInt (sender.Balance - req.Amount)
        let receiverBalance := wrapInt (receiver.Balance + req.Amount)
        let accounts := setBalance b.accounts (L.toLower req.From) senderBalance
        let accounts := setBalance accounts (L.toLower req.To) receiverBalance
        some ({ accounts := accounts },
          { From := sender.Name, FromBalance := senderBalance,
            To := receiver.Name, ToBalance := receiverBalance,
            Message := "Transfer successful" },
          none)
    | _, _ => none

/-- The order in which `ProcessTransfer` locks the two accounts (lines 101-107), as the
pair of the rewritten names of the account locked first and of the account locked second;
`req` is the request as rewritten by `validateTransferRequest`. -/
def lockOrder (req : TransferRequest) : String × String :=
  if req.From < req.To then (req.From, req.To) else (req.To, req.From)

/-- The last record of a loaded sequence whose lowercased name is the lowercased `n`: the
"last write" for `n` in the words of the specification of `load`. -/
def lastRecordFor (L : Lowering) (records : List Account) (n : String) : Option Account :=
  records.reverse.find? (fun acc => decide (L.toLower acc.Name = L.toLower n))

/-- Sum of the balances of all the accounts of the registry. -/
def totalBalance (b : Bank) : Int :=
  (b.accounts.map (fun p => p.2.Balance)).sum

/-- The update `Balance += d` through the account pointer stored under `k`. -/
def addBalance : List (String × Account) → String → Int → List (String × Account)
  | [], _, _ => []
  | (k', v) :: rest, k, d =>
    if k' = k then (k', { v with Balance := wrapInt (v.Balance + d) }) :: rest
    else (k', v) :: addBalance rest k d

/-- Calls of `ProcessTransfer` executed one after the other on the same registry, as in a
serialisation of the goroutines of `TestConcurrentTransfers`: the final registry and the
response and error of each call, in the order of the calls. -/
def processAll (L : Lowering) (b : Bank) :
    List TransferRequest → Option (Bank × List (TransferResponse × Option String))
  | [] => some (b, [])
  | req :: rest =>
    match ProcessTransfer L b req with
    | none => none
    | some (b', resp, err) =>
      match processAll L b' rest with
      | none => none
      | some (b'', outs) => some (b'', (resp, err) :: outs)

/-! ## Registries used in the examples -/

/-- The registry of `TestSuccessfulTransfer`: Mark with 100, Jane with 50. -/
def markJaneBank : Bank :=
  LoadAccounts asciiLowering { accounts := [] } [⟨"Mark", 100⟩, ⟨"Jane", 50⟩]

/-- A registry in which Jane holds the largest `int`: Mark with 1, Jane with `intMax`. -/
def fullJaneBank : Bank :=
  addAccount asciiLowering (addAccount asciiLowering { accounts := [] } "Mark" 1)
    "Jane" 9223372036854775807

/-- The registry of `TestSelfTransfer` and of the two not-found tests: Mark with 100. -/
def markBank : Bank :=
  addAccount asciiLowering { accounts := [] } "Mark" 100

/-- The registry of `TestInsufficientFunds`: Jane with 50, Adam with 0. -/
def janeAdamBank : Bank :=
  addAccount asciiLowering (addAccount asciiLowering { accounts := [] } "Jane" 50) "Adam" 0

/-- The registry of `TestConcurrentTransfers`: Mark with 100, Jane with 50, Adam with 0. -/
def markJaneAdamBank : Bank :=
  addAccount asciiLowering
    (addAccount asciiLowering (addAccount asciiLowering { accounts := [] } "Mark" 100)
      "Jane" 50)
    "Adam" 0

/-- The three transfers of `TestConcurrentTransfers`. -/
def cyclicTransfers : List TransferRequest :=
  [⟨"Mark", "Jane", 20⟩, ⟨"Jane", "Mark", 20⟩, ⟨"Mark", "Adam", 20⟩]

/-! ## Lemmas on the map primitives -/

theorem mapGet_mapSet (m : List (String × Account)) (k k' : String) (v : Account) :
    mapGet (mapSet m k v) k' = if k = k' then some v else mapGet m k' := by
  induction m with
  | nil => simp [mapSet, mapGet]
  | cons p rest ih =>
    obtain ⟨k0, v0⟩ := p
    by_cases h0 : k0 = k
    · subst h0
      by_cases h1 : k0 = k' <;> simp [mapSet, mapGet, h1]
    · by_cases h1 : k0 = k'
      · subst h1
        have : ¬ k = k0 := fun h => h0 h.symm
        simp [mapSet, mapGet, h0, this]
      · simp [mapSet, mapGet, h0, h1, ih]

theorem mapGet_setBalance (m : List (String × Account)) (k k' : String) (bal : Int) :
    mapGet (setBalance m k bal) k' =
      if k = k' then (mapGet m k').map (fun a => { a with Balance := bal })
      else mapGet m k' := by
  induction m with
  | nil => simp [setBalance, mapGet]
  | cons p rest ih =>
    obtain ⟨k0, v0⟩ := p
    by_cases h0 : k0 = k
    · subst h0
      by_cases h1 : k0 = k' <;> simp [setBalance, mapGet, h1]
    · by_cases h1 : k0 = k'
      · subst h1
        have : ¬ k = k0 := fun h => h0 h.symm
        simp [setBalance, mapGet, h0, this]
      · simp [setBalance, mapGet, h0, h1, ih]

theorem mem_of_mapGet {m : List (String × Account)} {k : String} {a : Account}
    (h : mapGet m k = some a) : (k, a) ∈ m := by
  induction m with
  | nil => simp [mapGet] at h
  | cons p rest ih =>
    obtain ⟨k0, v0⟩ := p
    by_cases h0 : k0 = k
    · subst h0
      simp [mapGet] at h
      simp [h]
    · simp [mapGet, h0] at h
      exact List.mem_cons_of_mem _ (ih h)

theorem mem_setBalance {m : List (String × Account)} {k : String} {bal : Int}
    {p : String × Account} (h : p ∈ setBalance m k bal) :
    p ∈ m ∨ (p.1 = k ∧ p.2.Balance = bal) := by
  induction m with
  | nil => simp [setBalance] at h
  | cons q rest ih =>
    obtain ⟨k0, v0⟩ := q
    by_cases h0 : k0 = k
    · simp only [setBalance, h0, if_true, List.mem_cons] at h
      rcases h with h | h
      · right; subst h; simp
      · left; exact List.mem_cons_of_mem _ h
    · simp only [setBalance, h0, if_false, List.mem_cons] at h
      rcases h with h | h
      · left; subst h; simp
      · rcases ih h with h2 | h2
        · left; exact List.mem_cons_of_mem _ h2
        · right; exact h2

/-! ## Lemmas on machine integers -/

theorem wrapInt_of_isGoInt {x : Int} (h : IsGoInt x) : wrapInt x = x := by
  unfold IsGoInt intMin intMax at h
  unfold wrapInt
  have h1 : (x + 9223372036854775808) % 18446744073709551616 = x + 9223372036854775808 :=
    Int.emod_eq_of_lt (by omega) (by omega)
  omega

theorem isGoInt_wrapInt (x : Int) : IsGoInt (wrapInt x) := by
  unfold IsGoInt intMin intMax wrapInt
  omega

theorem wrapInt_emod (x : Int) :
    wrapInt x % 18446744073709551616 = x % 18446744073709551616 := by
  unfold wrapInt
  omega

/-! ## Lemmas on the operations -/

theorem GetAccount_toLower (L : Lowering) (b : Bank) (name : String) :
    GetAccount L b (L.toLower name) = GetAccount L b name := by
  simp [GetAccount, L.idem]

/-- The branches of `ProcessTransfer`, in terms of the request as passed by the caller. -/
theorem processTransfer_eq (L : Lowering) (b : Bank) (req : TransferRequest) :
    ProcessTransfer L b req =
      if L.toLower req.From = L.toLower req.To then
        some (b, zeroResponse, some "cannot transfer to the same account")
      else if req.Amount ≤ 0 then
        some (b, zeroResponse, some "amount must be greater than zero")
      else
        match GetAccount L b req.From with
        | none => some (b, zeroResponse, some "sender account does not exist")
        | some s =>
          match GetAccount L b req.To with
          | none => some (b, zeroResponse, some "receiver account does not exist")
          | some r =>
            if s.Balance < req.Amount then
              some (b, zeroResponse, some "insufficient funds")
            else
              some ({ accounts :=
                        setBalance
                          (setBalance b.accounts (L.toLower req.From)
                            (wrapInt (s.Balance - req.Amount)))
                          (L.toLower req.To) (wrapInt (r.Balance + req.Amount)) },
                { From := s.Name, FromBalance := wrapInt (s.Balance - req.Amount),
                  To := r.Name, ToBalance := wrapInt (r.Balance + req.Amount),
                  Message := "Transfer successful" },
                none) := by
  unfold ProcessTransfer validateTransferRequest
  by_cases h1 : L.toLower req.From = L.toLower req.To
  · simp [h1]
  · by_cases h2 : req.Amount ≤ 0
    · simp [h1, h2]
    · cases hs : GetAccount L b req.From with
      | none => simp [h1, h2, hs, GetAccount_toLower]
      | some s =>
        cases hr : GetAccount L b req.To with
        | none => simp [h1, h2, hs, hr, GetAccount_toLower]
        | some r => simp [h1, h2, hs, hr, GetAccount_toLower, L.idem]

/-- The two accounts after a transfer that went through. -/
theorem getAccount_after_transfer (L : Lowering) (b : Bank) (req : TransferRequest)
    (s r : Account) (x y : Int)
    (hne : L.toLower req.From ≠ L.toLower req.To)
    (hs : GetAccount L b req.From = some s) (hr : GetAccount L b req.To = some r) :
    GetAccount L
        { accounts := setBalance (setBalance b.accounts (L.toLower req.From) x)
            (L.toLower req.To) y } req.From = some { s with Balance := x } ∧
    GetAccount L
        { accounts := setBalance (setBalance b.accounts (L.toLower req.From) x)
            (L.toLower req.To) y } req.To = some { r with Balance := y } := by
  unfold GetAccount at *
  have hne2 : ¬ L.toLower req.To = L.toLower req.From := fun h => hne h.symm
  simp [mapGet_setBalance, hne, hne2, hs, hr]

/-- Every call of `ProcessTransfer` either returns an error with the registry as it was
and the zero response, or goes through on a validated request with sufficient funds. -/
theorem processTransfer_cases (L : Lowering) (b : Bank) (req : TransferRequest) :
    (∃ e, ProcessTransfer L b req = some (b, zeroResponse, some e)) ∨
    (∃ s r, L.toLower req.From ≠ L.toLower req.To ∧ 0 < req.Amount ∧
      GetAccount L b req.From = some s ∧ GetAccount L b req.To = some r ∧
      req.Amount ≤ s.Balance ∧
      ProcessTransfer L b req =
        some ({ accounts :=
                  setBalance
                    (setBalance b.accounts (L.toLower req.From)
                      (wrapInt (s.Balance - req.Amount)))
                    (L.toLower req.To) (wrapInt (r.Balance + req.Amount)) },
          { From := s.Name, FromBalance := wrapInt (s.Balance - req.Amount),
            To := r.Name, ToBalance := wrapInt (r.Balance + req.Amount),
            Message := "Transfer successful" },
          none)) := by
  rw [processTransfer_eq]
  by_cases h1 : L.toLower req.From = L.toLower req.To
  · left; exact ⟨_, by rw [if_pos h1]⟩
  · by_cases h2 : req.Amount ≤ 0
    · left; exact ⟨_, by rw [if_neg h1, if_pos h2]⟩
    · cases hs : GetAccount L b req.From with
      | none => left; exact ⟨_, by rw [if_neg h1, if_neg h2]⟩
      | some s =>
        cases hr : GetAccount L b req.To with
        | none => left; exact ⟨_, by rw [if_neg h1, if_neg h2]⟩
        | some r =>
          by_cases h3 : s.Balance < req.Amount
          · left
            refine ⟨"insufficient funds", ?_⟩
            rw [if_neg h1, if_neg h2]; simp only [if_pos h3]
          · right
            refine ⟨s, r, h1, by omega, rfl, rfl, by omega, ?_⟩
            rw [if_neg h1, if_neg h2]; simp only [if_neg h3]

/-- The error returned by `validateTransferRequest`, in terms of the request as passed by
the caller. -/
theorem validateTransferRequest_error (L : Lowering) (b : Bank) (req : TransferRequest) :
    (validateTransferRequest L b req).2 =
      if L.toLower req.From = L.toLower req.To then
        some "cannot transfer to the same account"
      else if req.Amount ≤ 0 then
        some "amount must be greater than zero"
      else if GetAccount L b req.From = none then
        some "sender account does not exist"
      else if GetAccount L b req.To = none then
        some "receiver account does not exist"
      else none := by
  unfold validateTransferRequest
  simp only [GetAccount_toLower, Option.isNone_iff_eq_none]
  split_ifs <;> rfl

/-! ## C1: the successful transfer -/

/-- C1, counterexample: with Mark at 1 and Jane at the largest `int`, `transfer(Mark, Jane, 1)`
meets every condition of the claim and succeeds, but Jane's balance afterwards is the
smallest `int`, not her old balance plus 1. -/
theorem c1_credit_wraps_around :
    asciiLowering.toLower "Mark" ≠ asciiLowering.toLower "Jane" ∧
    (0 : Int) < 1 ∧
    GetAccount asciiLowering fullJaneBank "Mark" = some ⟨"Mark", 1⟩ ∧
    GetAccount asciiLowering fullJaneBank "Jane" = some ⟨"Jane", 9223372036854775807⟩ ∧
    (1 : Int) ≤ 1 ∧
    ProcessTransfer asciiLowering fullJaneBank ⟨"Mark", "Jane", 1⟩ =
      some (⟨[("mark", ⟨"Mark", 0⟩), ("jane", ⟨"Jane", -9223372036854775808⟩)]⟩,
        ⟨"Mark", 0, "Jane", -9223372036854775808, "Transfer successful"⟩, none) ∧
    GetAccount asciiLowering
        ⟨[("mark", ⟨"Mark", 0⟩), ("jane", ⟨"Jane", -9223372036854775808⟩)]⟩ "Jane" =
      some ⟨"Jane", -9223372036854775808⟩ ∧
    (-9223372036854775808 : Int) ≠ 9223372036854775807 + 1 := by
  decide

/-- C1, amended: for every registry and every request whose lowercased from and to differ,
whose amount is positive, whose from and to resolve to accounts `s` and `r` (holding `int`
balances) and whose sender balance is at least the amount, `ProcessTransfer` returns no
error, leaves the sender's balance at `s.Balance - amount` and the receiver's at
`r.Balance + amount` wrapped around to the range of `int` (which is exactly
`r.Balance + amount` whenever that does not exceed `intMax`), and returns the response made
of those two post-transfer balances, the stored names and "Transfer successful". -/
theorem c1_transfer_success (L : Lowering) (b : Bank) (req : TransferRequest) (s r : Account)
    (hne : L.toLower req.From ≠ L.toLower req.To) (hpos : 0 < req.Amount)
    (hs : GetAccount L b req.From = some s) (hr : GetAccount L b req.To = some r)
    (hfunds : req.Amount ≤ s.Balance)
    (hsInt : IsGoInt s.Balance) (hrInt : IsGoInt r.Balance) :
    ∃ b' resp, ProcessTransfer L b req = some (b', resp, none) ∧
      GetAccount L b' req.From = some { s with Balance := s.Balance - req.Amount } ∧
      GetAccount L b' req.To = some { r with Balance := wrapInt (r.Balance + req.Amount) } ∧
      (r.Balance + req.Amount ≤ intMax →
        GetAccount L b' req.To = some { r with Balance := r.Balance + req.Amount }) ∧
      resp = { From := s.Name, FromBalance := s.Balance - req.Amount,
               To := r.Name, ToBalance := wrapInt (r.Balance + req.Amount),
               Message := "Transfer successful" } := by
  have hsub : wrapInt (s.Balance - req.Amount) = s.Balance - req.Amount := by
    apply wrapInt_of_isGoInt
    unfold IsGoInt intMin intMax at *
    omega
  have hnotlt : ¬ s.Balance < req.Amount := by omega
  have hnotle : ¬ req.Amount ≤ 0 := by omega
  obtain ⟨hgs, hgr⟩ := getAccount_after_transfer L b req s r
    (s.Balance - req.Amount) (wrapInt (r.Balance + req.Amount)) hne hs hr
  refine ⟨_, _, ?_, hgs, hgr, ?_, rfl⟩
  · rw [processTransfer_eq]
    simp only [hne, hnotle, hs, hr, hnotlt, if_false, hsub]
  · intro hmax
    have hadd : wrapInt (r.Balance + req.Amount) = r.Balance + req.Amount := by
      apply wrapInt_of_isGoInt
      unfold IsGoInt intMin intMax at *
      omega
    rw [hgr, hadd]

/-- C1, witness: the scenario of `TestSuccessfulTransfer`; after loading Mark 100 and
Jane 50, `transfer(Mark, Jane, 30)` gives `FromBalance` 70 and `ToBalance` 80. -/
theorem c1_transfer_success_witness :
    (∃ b' resp, ProcessTransfer asciiLowering markJaneBank ⟨"Mark", "Jane", 30⟩ =
        some (b', resp, none) ∧
      GetAccount asciiLowering b' "Mark" = some ⟨"Mark", 100 - 30⟩ ∧
      GetAccount asciiLowering b' "Jane" = some ⟨"Jane", wrapInt (50 + 30)⟩ ∧
      ((50 : Int) + 30 ≤ intMax →
        GetAccount asciiLowering b' "Jane" = some ⟨"Jane", 50 + 30⟩) ∧
      resp = ⟨"Mark", 100 - 30, "Jane", wrapInt (50 + 30), "Transfer successful"⟩) ∧
    ProcessTransfer asciiLowering markJaneBank ⟨"Mark", "Jane", 30⟩ =
      some (⟨[("mark", ⟨"Mark", 70⟩), ("jane", ⟨"Jane", 80⟩)]⟩,
        ⟨"Mark", 70, "Jane", 80, "Transfer successful"⟩, none) :=
  ⟨c1_transfer_success asciiLowering markJaneBank ⟨"Mark", "Jane", 30⟩ ⟨"Mark", 100⟩
    ⟨"Jane", 50⟩ (by decide) (by decide) (by decide) (by decide) (by decide) (by decide)
    (by decide), by decide⟩

/-! ## C2: conservation over the two accounts -/

/-- C2, counterexample: with Mark at 1 and Jane at the largest `int`, `transfer(Mark, Jane, 1)`
succeeds; the two balances add up to `1 + intMax` before the call and to `0 + intMin`
after it. -/
theorem c2_sum_not_conserved :
    GetAccount asciiLowering fullJaneBank "Mark" = some ⟨"Mark", 1⟩ ∧
    GetAccount asciiLowering fullJaneBank "Jane" = some ⟨"Jane", 9223372036854775807⟩ ∧
    ProcessTransfer asciiLowering fullJaneBank ⟨"Mark", "Jane", 1⟩ =
      some (⟨[("mark", ⟨"Mark", 0⟩), ("jane", ⟨"Jane", -9223372036854775808⟩)]⟩,
        ⟨"Mark", 0, "Jane", -9223372036854775808, "Transfer successful"⟩, none) ∧
    GetAccount asciiLowering
        ⟨[("mark", ⟨"Mark", 0⟩), ("jane", ⟨"Jane", -9223372036854775808⟩)]⟩ "Mark" =
      some ⟨"Mark", 0⟩ ∧
    GetAccount asciiLowering
        ⟨[("mark", ⟨"Mark", 0⟩), ("jane", ⟨"Jane", -9223372036854775808⟩)]⟩ "Jane" =
      some ⟨"Jane", -9223372036854775808⟩ ∧
    (0 : Int) + -9223372036854775808 ≠ 1 + 9223372036854775807 := by
  decide

/-- C2, amended: for every registry of `int` balances and every request on which
`ProcessTransfer` succeeds, the sender and the receiver resolve before and after the call,
and sender balance after + receiver balance after equals sender balance before + receiver
balance before whenever receiver balance before + amount does not exceed `intMax`; without
that bound the two sums are still equal modulo 2^64. -/
theorem c2_conservation (L : Lowering) (b b' : Bank) (req : TransferRequest)
    (resp : TransferResponse)
    (hInt : ∀ p ∈ b.accounts, IsGoInt p.2.Balance)
    (hok : ProcessTransfer L b req = some (b', resp, none)) :
    ∃ s r s' r', GetAccount L b req.From = some s ∧ GetAccount L b req.To = some r ∧
      GetAccount L b' req.From = some s' ∧ GetAccount L b' req.To = some r' ∧
      (r.Balance + req.Amount ≤ intMax →
        s'.Balance + r'.Balance = s.Balance + r.Balance) ∧
      (s'.Balance + r'.Balance) % 18446744073709551616 =
        (s.Balance + r.Balance) % 18446744073709551616 := by
  rcases processTransfer_cases L b req with ⟨e, he⟩ | ⟨s, r, hne, hpos, hs, hr, hfunds, hpt⟩
  · rw [he] at hok
    simp at hok
  · rw [hpt] at hok
    simp only [Option.some.injEq, Prod.mk.injEq, and_true] at hok
    obtain ⟨hb, -⟩ := hok
    subst hb
    obtain ⟨hgs, hgr⟩ := getAccount_after_transfer L b req s r
      (wrapInt (s.Balance - req.Amount)) (wrapInt (r.Balance + req.Amount)) hne hs hr
    have hsInt : IsGoInt s.Balance := hInt _ (mem_of_mapGet hs)
    have hrInt : IsGoInt r.Balance := hInt _ (mem_of_mapGet hr)
    have hsub : wrapInt (s.Balance - req.Amount) = s.Balance - req.Amount := by
      apply wrapInt_of_isGoInt
      unfold IsGoInt intMin intMax at *
      omega
    refine ⟨s, r, _, _, hs, hr, hgs, hgr, ?_, ?_⟩
    · intro hmax
      have hadd : wrapInt (r.Balance + req.Amount) = r.Balance + req.Amount := by
        apply wrapInt_of_isGoInt
        unfold IsGoInt intMin intMax at *
        omega
      simp only [hsub, hadd]
      omega
    · simp only [hsub]
      have h := wrapInt_emod (r.Balance + req.Amount)
      omega

/-- C2, witness: `transfer(Mark, Jane, 30)` on Mark 100, Jane 50. -/
theorem c2_conservation_witness :
    ∃ s r s' r', GetAccount asciiLowering markJaneBank "Mark" = some s ∧
      GetAccount asciiLowering markJaneBank "Jane" = some r ∧
      GetAccount asciiLowering
        ⟨[("mark", ⟨"Mark", 70⟩), ("jane", ⟨"Jane", 80⟩)]⟩ "Mark" = some s' ∧
      GetAccount asciiLowering
        ⟨[("mark", ⟨"Mark", 70⟩), ("jane", ⟨"Jane", 80⟩)]⟩ "Jane" = some r' ∧
      (r.Balance + 30 ≤ intMax → s'.Balance + r'.Balance = s.Balance + r.Balance) ∧
      (s'.Balance + r'.Balance) % 18446744073709551616 =
        (s.Balance + r.Balance) % 18446744073709551616 :=
  c2_conservation asciiLowering markJaneBank
    ⟨[("mark", ⟨"Mark", 70⟩), ("jane", ⟨"Jane", 80⟩)]⟩ ⟨"Mark", "Jane", 30⟩
    ⟨"Mark", 70, "Jane", 80, "Transfer successful"⟩ (by decide) (by decide)

/-! ## C3: no negative balance -/

/-- C3, counterexample: every balance of the registry Mark 1, Jane `intMax` is non-negative
and 1 is an `int`, yet after `transfer(Mark, Jane, 1)` has returned its response Jane's
balance is negative. -/
theorem c3_negative_balance_after_transfer :
    (∀ p ∈ fullJaneBank.accounts, 0 ≤ p.2.Balance ∧ IsGoInt p.2.Balance) ∧
    IsGoInt 1 ∧
    ProcessTransfer asciiLowering fullJaneBank ⟨"Mark", "Jane", 1⟩ =
      some (⟨[("mark", ⟨"Mark", 0⟩), ("jane", ⟨"Jane", -9223372036854775808⟩)]⟩,
        ⟨"Mark", 0, "Jane", -9223372036854775808, "Transfer successful"⟩, none) ∧
    ¬ (∀ p ∈ (⟨[("mark", ⟨"Mark", 0⟩),
                ("jane", ⟨"Jane", -9223372036854775808⟩)]⟩ : Bank).accounts,
        0 ≤ p.2.Balance) := by
  decide

/-- C3, amended: for every registry in which every account balance is a non-negative `int`
and every request such that the balance of the account `to` resolves to, plus the amount,
does not exceed `intMax`, `ProcessTransfer` returns (a response or an error) and every
account balance in the registry is still non-negative afterwards. -/
theorem c3_no_negative_balance (L : Lowering) (b : Bank) (req : TransferRequest)
    (hb : ∀ p ∈ b.accounts, 0 ≤ p.2.Balance ∧ p.2.Balance ≤ intMax)
    (hcredit : ∀ r, GetAccount L b req.To = some r → r.Balance + req.Amount ≤ intMax) :
    ∃ b' resp err, ProcessTransfer L b req = some (b', resp, err) ∧
      ∀ p ∈ b'.accounts, 0 ≤ p.2.Balance := by
  rcases processTransfer_cases L b req with ⟨e, he⟩ | ⟨s, r, hne, hpos, hs, hr, hfunds, hpt⟩
  · exact ⟨b, zeroResponse, some e, he, fun p hp => (hb p hp).1⟩
  · refine ⟨_, _, none, hpt, ?_⟩
    have hsb := hb _ (mem_of_mapGet hs)
    have hrb := hb _ (mem_of_mapGet hr)
    have hmax := hcredit r hr
    have hsub : wrapInt (s.Balance - req.Amount) = s.Balance - req.Amount := by
      apply wrapInt_of_isGoInt
      unfold IsGoInt intMin intMax at *
      simp only at hsb
      omega
    have hadd : wrapInt (r.Balance + req.Amount) = r.Balance + req.Amount := by
      apply wrapInt_of_isGoInt
      unfold IsGoInt intMin intMax at *
      simp only at hrb
      omega
    intro p hp
    rcases mem_setBalance hp with hp1 | ⟨-, hbal⟩
    · rcases mem_setBalance hp1 with hp2 | ⟨-, hbal⟩
      · exact (hb p hp2).1
      · rw [hbal, hsub]; omega
    · rw [hbal, hadd]
      simp only at hrb
      omega

/-- C3, witness: `transfer(Mark, Jane, 30)` on Mark 100, Jane 50. -/
theorem c3_no_negative_balance_witness :
    ∃ b' resp err, ProcessTransfer asciiLowering markJaneBank ⟨"Mark", "Jane", 30⟩ =
        some (b', resp, err) ∧
      ∀ p ∈ b'.accounts, 0 ≤ p.2.Balance :=
  c3_no_negative_balance asciiLowering markJaneBank ⟨"Mark", "Jane", 30⟩ (by decide)
    (by decide)

/-! ## C4-C6: the order of the validation errors -/

/-- C4: for every registry and every request whose from and to have the same lowercase form
(whatever the amount, and whether or not the name is in the registry), `ProcessTransfer`
returns the error "cannot transfer to the same account". -/
theorem c4_self_transfer_rejected (L : Lowering) (b : Bank) (req : TransferRequest)
    (hsame : L.toLower req.From = L.toLower req.To) :
    ProcessTransfer L b req =
      some (b, zeroResponse, some "cannot transfer to the same account") := by
  rw [processTransfer_eq, if_pos hsame]

/-- C4, witness: `transfer(Mark, MARK, -5)` on the registry holding Mark. -/
theorem c4_self_transfer_rejected_witness :
    ProcessTransfer asciiLowering markBank ⟨"Mark", "MARK", -5⟩ =
      some (markBank, zeroResponse, some "cannot transfer to the same account") :=
  c4_self_transfer_rejected asciiLowering markBank ⟨"Mark", "MARK", -5⟩ (by decide)

/-- C5: for every registry and every request whose lowercased from and to differ and whose
amount is at most zero, `ProcessTransfer` returns the error "amount must be greater than
zero", whether or not from or to are in the registry. -/
theorem c5_non_positive_amount_rejected (L : Lowering) (b : Bank) (req : TransferRequest)
    (hne : L.toLower req.From ≠ L.toLower req.To) (hle : req.Amount ≤ 0) :
    ProcessTransfer L b req =
      some (b, zeroResponse, some "amount must be greater than zero") := by
  rw [processTransfer_eq, if_neg hne, if_pos hle]

/-- C5, witness: `transfer(unknownX, unknownY, 0)` on the registry holding only Mark. -/
theorem c5_non_positive_amount_rejected_witness :
    ProcessTransfer asciiLowering markBank ⟨"unknownX", "unknownY", 0⟩ =
      some (markBank, zeroResponse, some "amount must be greater than zero") :=
  c5_non_positive_amount_rejected asciiLowering markBank ⟨"unknownX", "unknownY", 0⟩
    (by decide) (by decide)

/-- C6: for every registry and every request with distinct lowercased from and to and a
positive amount, if from does not resolve then `ProcessTransfer` returns "sender account does
not exist" (whether or not to resolves), and if from resolves but to does not then it returns
"receiver account does not exist". -/
theorem c6_existence_precedence (L : Lowering) (b : Bank) (req : TransferRequest)
    (hne : L.toLower req.From ≠ L.toLower req.To) (hpos : 0 < req.Amount) :
    (GetAccount L b req.From = none →
      ProcessTransfer L b req =
        some (b, zeroResponse, some "sender account does not exist")) ∧
    (∀ s, GetAccount L b req.From = some s → GetAccount L b req.To = none →
      ProcessTransfer L b req =
        some (b, zeroResponse, some "receiver account does not exist")) := by
  have hnotle : ¬ req.Amount ≤ 0 := by omega
  constructor
  · intro hs
    rw [processTransfer_eq, if_neg hne, if_neg hnotle, hs]
  · intro s hs hr
    rw [processTransfer_eq, if_neg hne, if_neg hnotle, hs, hr]

/-- C6, witness: on the registry holding only Mark, `transfer(Unknown, Mark, 10)` gives the
sender error and `transfer(Mark, Unknown, 10)` the receiver error. -/
theorem c6_existence_precedence_witness :
    ProcessTransfer asciiLowering markBank ⟨"Unknown", "Mark", 10⟩ =
      some (markBank, zeroResponse, some "sender account does not exist") ∧
    ProcessTransfer asciiLowering markBank ⟨"Mark", "Unknown", 10⟩ =
      some (markBank, zeroResponse, some "receiver account does not exist") :=
  ⟨(c6_existence_precedence asciiLowering markBank ⟨"Unknown", "Mark", 10⟩
      (by decide) (by decide)).1 (by decide),
   (c6_existence_precedence asciiLowering markBank ⟨"Mark", "Unknown", 10⟩
      (by decide) (by decide)).2 ⟨"Mark", 100⟩ (by decide) (by decide)⟩

/-! ## C7-C8: failed transfers -/

/-- C7: for every registry and every request that passes validation (distinct lowercased
from and to, positive amount, from and to resolving to `s` and `r`), `ProcessTransfer`
returns the error "insufficient funds" if and only if `s.Balance < amount`, and whenever it
returns that error the registry is the one before the call, so that from and to still
resolve to `s` and `r` with their balances. -/
theorem c7_insufficient_funds (L : Lowering) (b : Bank) (req : TransferRequest)
    (s r : Account)
    (hne : L.toLower req.From ≠ L.toLower req.To) (hpos : 0 < req.Amount)
    (hs : GetAccount L b req.From = some s) (hr : GetAccount L b req.To = some r) :
    ((∃ b' resp, ProcessTransfer L b req = some (b', resp, some "insufficient funds")) ↔
      s.Balance < req.Amount) ∧
    (∀ b' resp, ProcessTransfer L b req = some (b', resp, some "insufficient funds") →
      b' = b ∧ GetAccount L b' req.From = some s ∧ GetAccount L b' req.To = some r) := by
  have hnotle : ¬ req.Amount ≤ 0 := by omega
  have hpt := processTransfer_eq L b req
  rw [if_neg hne, if_neg hnotle, hs, hr] at hpt
  simp only at hpt
  by_cases hlt : s.Balance < req.Amount
  · rw [if_pos hlt] at hpt
    refine ⟨⟨fun _ => hlt, fun _ => ⟨b, zeroResponse, hpt⟩⟩, ?_⟩
    intro b' resp h
    rw [hpt] at h
    simp only [Option.some.injEq, Prod.mk.injEq, and_true] at h
    obtain ⟨hb, -⟩ := h
    subst hb
    exact ⟨rfl, hs, hr⟩
  · rw [if_neg hlt] at hpt
    refine ⟨⟨?_, fun h => absurd h hlt⟩, ?_⟩
    · rintro ⟨b', resp, h⟩
      rw [hpt] at h
      simp at h
    · intro b' resp h
      rw [hpt] at h
      simp at h

/-- C7, witness: `transfer(Jane, Adam, 100)` on Jane 50, Adam 0, as in
`TestInsufficientFunds`. -/
theorem c7_insufficient_funds_witness :
    ((∃ b' resp, ProcessTransfer asciiLowering janeAdamBank ⟨"Jane", "Adam", 100⟩ =
        some (b', resp, some "insufficient funds")) ↔ (50 : Int) < 100) ∧
    (∀ b' resp, ProcessTransfer asciiLowering janeAdamBank ⟨"Jane", "Adam", 100⟩ =
        some (b', resp, some "insufficient funds") →
      b' = janeAdamBank ∧ GetAccount asciiLowering b' "Jane" = some ⟨"Jane", 50⟩ ∧
        GetAccount asciiLowering b' "Adam" = some ⟨"Adam", 0⟩) :=
  c7_insufficient_funds asciiLowering janeAdamBank ⟨"Jane", "Adam", 100⟩ ⟨"Jane", 50⟩
    ⟨"Adam", 0⟩ (by decide) (by decide) (by decide) (by decide)

/-- C8: for every registry and every request for which `ProcessTransfer` returns one of the
four validation errors, that error is the one `validateTransferRequest` returned, the
registry after the call is the registry before it and the returned response is the zero
value `TransferResponse{}`. -/
theorem c8_validation_failure_mutates_nothing (L : Lowering) (b b' : Bank)
    (req : TransferRequest) (resp : TransferResponse) (e : String)
    (hret : ProcessTransfer L b req = some (b', resp, some e))
    (hval : e = "cannot transfer to the same account" ∨
      e = "amount must be greater than zero" ∨
      e = "sender account does not exist" ∨
      e = "receiver account does not exist") :
    (validateTransferRequest L b req).2 = some e ∧ b' = b ∧ resp = zeroResponse := by
  have hne : e ≠ "insufficient funds" := by
    rcases hval with h | h | h | h <;> subst h <;> decide
  rw [processTransfer_eq] at hret
  rw [validateTransferRequest_error]
  by_cases h1 : L.toLower req.From = L.toLower req.To
  · rw [if_pos h1] at hret ⊢
    simp only [Option.some.injEq, Prod.mk.injEq] at hret
    obtain ⟨hb, hresp, he⟩ := hret
    exact ⟨by rw [he], hb.symm, hresp.symm⟩
  · rw [if_neg h1] at hret ⊢
    by_cases h2 : req.Amount ≤ 0
    · rw [if_pos h2] at hret ⊢
      simp only [Option.some.injEq, Prod.mk.injEq] at hret
      obtain ⟨hb, hresp, he⟩ := hret
      exact ⟨by rw [he], hb.symm, hresp.symm⟩
    · rw [if_neg h2] at hret ⊢
      cases hs : GetAccount L b req.From with
      | none =>
        rw [hs] at hret
        simp only [Option.some.injEq, Prod.mk.injEq] at hret
        obtain ⟨hb, hresp, he⟩ := hret
        exact ⟨by simp [he], hb.symm, hresp.symm⟩
      | some s =>
        rw [hs] at hret
        cases hr : GetAccount L b req.To with
        | none =>
          rw [hr] at hret
          simp only [Option.some.injEq, Prod.mk.injEq] at hret
          obtain ⟨hb, hresp, he⟩ := hret
          exact ⟨by simp [he], hb.symm, hresp.symm⟩
        | some r =>
          rw [hr] at hret
          simp only at hret
          by_cases h3 : s.Balance < req.Amount
          · rw [if_pos h3] at hret
            simp only [Option.some.injEq, Prod.mk.injEq] at hret
            exact absurd hret.2.2.symm hne
          · rw [if_neg h3] at hret
            simp at hret

/-- C8, witness: `transfer(Unknown, Mark, 10)` on the registry holding only Mark returns
the sender error, the registry as it was and the zero response. -/
theorem c8_validation_failure_mutates_nothing_witness :
    ProcessTransfer asciiLowering markBank ⟨"Unknown", "Mark", 10⟩ =
      some (markBank, zeroResponse, some "sender account does not exist") ∧
    (validateTransferRequest asciiLowering markBank ⟨"Unknown", "Mark", 10⟩).2 =
      some "sender account does not exist" ∧
    markBank = markBank ∧ zeroResponse = zeroResponse :=
  ⟨by decide,
   c8_validation_failure_mutates_nothing asciiLowering markBank markBank
    ⟨"Unknown", "Mark", 10⟩ zeroResponse "sender account does not exist" (by decide)
    (by decide)⟩

/-! ## C9-C10: loading and looking up -/

/-- One more record at the end of the loaded sequence. -/
theorem LoadAccounts_append_singleton (L : Lowering) (b : Bank) (records : List Account)
    (acc : Account) :
    LoadAccounts L b (records ++ [acc]) =
      { accounts := mapSet (LoadAccounts L b records).accounts (L.toLower acc.Name)
          { Name := acc.Name, Balance := acc.Balance } } := by
  simp [LoadAccounts, List.foldl_append]

/-- C9: for every registry populated by the load loop and every two names with the same
lowercase form, `GetAccount` returns the same result for both (the same account, or not
found for both); and an account loaded under a name with that lowercase form is the
account both lookups return. -/
theorem c9_case_insensitive_lookup (L : Lowering) (b : Bank) (records : List Account)
    (n1 n2 : String) (hsame : L.toLower n1 = L.toLower n2) :
    GetAccount L (LoadAccounts L b records) n1 = GetAccount L (LoadAccounts L b records) n2 ∧
    ∀ name balance, L.toLower name = L.toLower n1 →
      GetAccount L (LoadAccounts L b (records ++ [⟨name, balance⟩])) n1 =
        some ⟨name, balance⟩ ∧
      GetAccount L (LoadAccounts L b (records ++ [⟨name, balance⟩])) n2 =
        some ⟨name, balance⟩ := by
  constructor
  · unfold GetAccount
    rw [hsame]
  · intro name balance hname
    rw [LoadAccounts_append_singleton]
    unfold GetAccount
    simp only [mapGet_mapSet, ← hsame, hname, if_true, and_self]

/-- C9, witness: an account loaded as "Mark" is found by "mark" and by "MARK", and both
lookups return that account. -/
theorem c9_case_insensitive_lookup_witness :
    GetAccount asciiLowering (LoadAccounts asciiLowering ⟨[]⟩ [⟨"Mark", 100⟩]) "mark" =
      GetAccount asciiLowering (LoadAccounts asciiLowering ⟨[]⟩ [⟨"Mark", 100⟩]) "MARK" ∧
    GetAccount asciiLowering
        (LoadAccounts asciiLowering ⟨[]⟩ ([] ++ [⟨"Mark", 100⟩])) "mark" =
      some ⟨"Mark", 100⟩ ∧
    GetAccount asciiLowering
        (LoadAccounts asciiLowering ⟨[]⟩ ([] ++ [⟨"Mark", 100⟩])) "MARK" =
      some ⟨"Mark", 100⟩ :=
  ⟨(c9_case_insensitive_lookup asciiLowering ⟨[]⟩ [⟨"Mark", 100⟩] "mark" "MARK"
      (by decide)).1,
   (c9_case_insensitive_lookup asciiLowering ⟨[]⟩ [] "mark" "MARK"
      (by decide)).2 "Mark" 100 (by decide)⟩

/-- C10: after the load loop has inserted a sequence of records into a registry,
`GetAccount n` returns the account built from the last record of the sequence whose
lowercased name equals the lowercased `n`, with that record's name and balance; when no
record matches, it returns what it returned before the load. -/
theorem c10_load_last_write_wins (L : Lowering) (b : Bank) (records : List Account)
    (n : String) :
    GetAccount L (LoadAccounts L b records) n =
      match lastRecordFor L records n with
      | some acc => some { Name := acc.Name, Balance := acc.Balance }
      | none => GetAccount L b n := by
  induction records using List.reverseRecOn with
  | nil => simp [LoadAccounts, lastRecordFor]
  | append_singleton pre acc ih =>
    rw [LoadAccounts_append_singleton]
    unfold lastRecordFor at *
    unfold GetAccount at *
    rw [mapGet_mapSet, List.reverse_append, List.reverse_singleton, List.singleton_append]
    by_cases h : L.toLower acc.Name = L.toLower n
    · rw [if_pos h, List.find?_cons_of_pos _ (by simpa using h)]
    · rw [if_neg h, List.find?_cons_of_neg _ (by simpa using h)]
      exact ih


/-! ## C11: conservation over the whole registry -/

/-- The sum of all balances after one balance write. -/
theorem sum_setBalance {m : List (String × Account)} {k : String} {a : Account}
    (bal : Int) (h : mapGet m k = some a) :
    ((setBalance m k bal).map (fun p => p.2.Balance)).sum =
      (m.map (fun p => p.2.Balance)).sum - a.Balance + bal := by
  induction m with
  | nil => simp [mapGet] at h
  | cons p rest ih =>
    obtain ⟨k0, v0⟩ := p
    by_cases h0 : k0 = k
    · simp only [mapGet, h0, if_true, Option.some.injEq] at h
      subst h
      simp only [setBalance, h0, if_true, List.map_cons, List.sum_cons]
      omega
    · simp only [mapGet, h0, if_false] at h
      simp only [setBalance, h0, if_false, List.map_cons, List.sum_cons, ih h]
      omega

/-- C11, counterexample: with Mark at 1 and Jane at the largest `int`, `transfer(Mark, Jane, 1)`
succeeds; the balances of the registry add up to 9223372036854775808 before the call and
to -9223372036854775808 after it. -/
theorem c11_total_not_conserved :
    ProcessTransfer asciiLowering fullJaneBank ⟨"Mark", "Jane", 1⟩ =
      some (⟨[("mark", ⟨"Mark", 0⟩), ("jane", ⟨"Jane", -9223372036854775808⟩)]⟩,
        ⟨"Mark", 0, "Jane", -9223372036854775808, "Transfer successful"⟩, none) ∧
    totalBalance fullJaneBank = 9223372036854775808 ∧
    totalBalance ⟨[("mark", ⟨"Mark", 0⟩), ("jane", ⟨"Jane", -9223372036854775808⟩)]⟩ =
      -9223372036854775808 ∧
    totalBalance ⟨[("mark", ⟨"Mark", 0⟩), ("jane", ⟨"Jane", -9223372036854775808⟩)]⟩ ≠
      totalBalance fullJaneBank := by
  decide

/-- C11, amended: for every registry of `int` balances and every request on which
`ProcessTransfer` succeeds, the receiver resolves to an account `r` before the call, and
the sum of the balances of all accounts after the call equals the sum before the call
whenever `r.Balance + amount` does not exceed `intMax`; without that bound the two sums are
still equal modulo 2^64. -/
theorem c11_global_conservation (L : Lowering) (b b' : Bank) (req : TransferRequest)
    (resp : TransferResponse)
    (hInt : ∀ p ∈ b.accounts, IsGoInt p.2.Balance)
    (hok : ProcessTransfer L b req = some (b', resp, none)) :
    ∃ r, GetAccount L b req.To = some r ∧
      (r.Balance + req.Amount ≤ intMax → totalBalance b' = totalBalance b) ∧
      totalBalance b' % 18446744073709551616 = totalBalance b % 18446744073709551616 := by
  rcases processTransfer_cases L b req with ⟨e, he⟩ | ⟨s, r, hne, hpos, hs, hr, hfunds, hpt⟩
  · rw [he] at hok
    simp at hok
  · rw [hpt] at hok
    simp only [Option.some.injEq, Prod.mk.injEq, and_true] at hok
    obtain ⟨hb, -⟩ := hok
    subst hb
    have hsInt : IsGoInt s.Balance := hInt _ (mem_of_mapGet hs)
    have hrInt : IsGoInt r.Balance := hInt _ (mem_of_mapGet hr)
    have hsub : wrapInt (s.Balance - req.Amount) = s.Balance - req.Amount := by
      apply wrapInt_of_isGoInt
      unfold IsGoInt intMin intMax at *
      omega
    have hr1 : mapGet (setBalance b.accounts (L.toLower req.From)
        (wrapInt (s.Balance - req.Amount))) (L.toLower req.To) = some r := by
      rw [mapGet_setBalance, if_neg hne]
      exact hr
    have hsum : totalBalance
        { accounts := setBalance (setBalance b.accounts (L.toLower req.From)
            (wrapInt (s.Balance - req.Amount))) (L.toLower req.To)
            (wrapInt (r.Balance + req.Amount)) } =
        totalBalance b - req.Amount - r.Balance + wrapInt (r.Balance + req.Amount) := by
      unfold totalBalance
      simp only
      rw [sum_setBalance _ hr1, sum_setBalance _ hs, hsub]
      omega
    refine ⟨r, hr, ?_, ?_⟩
    · intro hmax
      have hadd : wrapInt (r.Balance + req.Amount) = r.Balance + req.Amount := by
        apply wrapInt_of_isGoInt
        unfold IsGoInt intMin intMax at *
        omega
      rw [hsum, hadd]
      omega
    · rw [hsum]
      have h := wrapInt_emod (r.Balance + req.Amount)
      omega

/-- C11, witness: `transfer(Mark, Adam, 20)` on Mark 100, Jane 50, Adam 0. -/
theorem c11_global_conservation_witness :
    ∃ r, GetAccount asciiLowering markJaneAdamBank "Adam" = some r ∧
      (r.Balance + 20 ≤ intMax →
        totalBalance
            ⟨[("mark", ⟨"Mark", 80⟩), ("jane", ⟨"Jane", 50⟩), ("adam", ⟨"Adam", 20⟩)]⟩ =
          totalBalance markJaneAdamBank) ∧
      totalBalance
          ⟨[("mark", ⟨"Mark", 80⟩), ("jane", ⟨"Jane", 50⟩), ("adam", ⟨"Adam", 20⟩)]⟩ %
          18446744073709551616 =
        totalBalance markJaneAdamBank % 18446744073709551616 :=
  c11_global_conservation asciiLowering markJaneAdamBank
    ⟨[("mark", ⟨"Mark", 80⟩), ("jane", ⟨"Jane", 50⟩), ("adam", ⟨"Adam", 20⟩)]⟩
    ⟨"Mark", "Adam", 20⟩ ⟨"Mark", 80, "Adam", 20, "Transfer successful"⟩
    (by decide) (by decide)


/-! ## The order of the two locks -/

/-- On a request whose rewritten names differ, the account whose name is the smaller one is
locked first, whichever of the two is the sender: a request and the request in the opposite
direction lock in the same order. -/
theorem lockOrder_direction (req : TransferRequest) (hne : req.From ≠ req.To) :
    (lockOrder req).1 < (lockOrder req).2 ∧
    lockOrder { req with From := req.To, To := req.From } = lockOrder req := by
  unfold lockOrder
  rcases lt_trichotomy req.From req.To with h | h | h
  · have h2 : ¬ req.To < req.From := lt_asymm h
    simp only [if_pos h, if_neg h2]
    exact ⟨h, trivial⟩
  · exact absurd h hne
  · have h2 : ¬ req.From < req.To := lt_asymm h
    simp only [if_neg h2, if_pos h]
    exact ⟨h, trivial⟩

/-! ## C13: the cyclic transfers of `TestConcurrentTransfers` -/

/-- C13: starting from Mark 100, Jane 50, Adam 0, in every order in which the transfers
`transfer(Mark, Jane, 20)`, `transfer(Jane, Mark, 20)` and `transfer(Mark, Adam, 20)` are
executed one after the other, the three calls return no error and the registry ends with
Mark 80, Jane 50, Adam 20. -/
theorem c13_cyclic_transfers_any_order (order : List TransferRequest)
    (horder : order.Perm cyclicTransfers) :
    (processAll asciiLowering markJaneAdamBank order).map
        (fun out => (out.1, out.2.map Prod.snd)) =
      some (⟨[("mark", ⟨"Mark", 80⟩), ("jane", ⟨"Jane", 50⟩), ("adam", ⟨"Adam", 20⟩)]⟩,
        [none, none, none]) := by
  have hall : ∀ o ∈ List.permutations' cyclicTransfers,
      (processAll asciiLowering markJaneAdamBank o).map
          (fun out => (out.1, out.2.map Prod.snd)) =
        some (⟨[("mark", ⟨"Mark", 80⟩), ("jane", ⟨"Jane", 50⟩), ("adam", ⟨"Adam", 20⟩)]⟩,
          [none, none, none]) := by
    decide
  exact hall order (List.mem_permutations'.mpr horder)

/-- C13, witness: the order `transfer(Mark, Adam, 20)`, `transfer(Jane, Mark, 20)`,
`transfer(Mark, Jane, 20)`. -/
theorem c13_cyclic_transfers_any_order_witness :
    (processAll asciiLowering markJaneAdamBank
        [⟨"Mark", "Adam", 20⟩, ⟨"Jane", "Mark", 20⟩, ⟨"Mark", "Jane", 20⟩]).map
        (fun out => (out.1, out.2.map Prod.snd)) =
      some (⟨[("mark", ⟨"Mark", 80⟩), ("jane", ⟨"Jane", 50⟩), ("adam", ⟨"Adam", 20⟩)]⟩,
        [none, none, none]) :=
  c13_cyclic_transfers_any_order
    [⟨"Mark", "Adam", 20⟩, ⟨"Jane", "Mark", 20⟩, ⟨"Mark", "Jane", 20⟩] (by decide)


/-! ## C14: the frame of a transfer -/

/-- A balance write keeps the keys and the stored names, entry by entry. -/
theorem setBalance_keys_names (m : List (String × Account)) (k : String) (bal : Int) :
    (setBalance m k bal).map (fun p => (p.1, p.2.Name)) =
      m.map (fun p => (p.1, p.2.Name)) := by
  induction m with
  | nil => rfl
  | cons p rest ih =>
    obtain ⟨k0, v0⟩ := p
    by_cases h0 : k0 = k
    · simp [setBalance, h0]
    · simp [setBalance, h0, ih]

/-- C14: every call of `ProcessTransfer` returns (with a response or with an error) and
leaves the keys of the registry as they were, leaves the name stored under each key as it
was, and leaves the account stored under every key other than those of the sender and of
the receiver as it was. -/
theorem c14_transfer_frame (L : Lowering) (b : Bank) (req : TransferRequest) :
    ∃ b' resp err, ProcessTransfer L b req = some (b', resp, err) ∧
      b'.accounts.map Prod.fst = b.accounts.map Prod.fst ∧
      b'.accounts.map (fun p => (p.1, p.2.Name)) =
        b.accounts.map (fun p => (p.1, p.2.Name)) ∧
      ∀ k, k ≠ L.toLower req.From → k ≠ L.toLower req.To →
        mapGet b'.accounts k = mapGet b.accounts k := by
  rcases processTransfer_cases L b req with ⟨e, he⟩ | ⟨s, r, -, -, -, -, -, hpt⟩
  · exact ⟨b, zeroResponse, some e, he, rfl, rfl, fun _ _ _ => rfl⟩
  · refine ⟨_, _, none, hpt, ?_, ?_, ?_⟩
    · have h := congrArg (List.map Prod.fst)
        ((setBalance_keys_names
            (setBalance b.accounts (L.toLower req.From) (wrapInt (s.Balance - req.Amount)))
            (L.toLower req.To) (wrapInt (r.Balance + req.Amount))).trans
          (setBalance_keys_names b.accounts (L.toLower req.From)
            (wrapInt (s.Balance - req.Amount))))
      simpa [List.map_map, Function.comp_def] using h
    · exact (setBalance_keys_names _ _ _).trans (setBalance_keys_names _ _ _)
    · intro k hk1 hk2
      have h1 : ¬ L.toLower req.From = k := fun h => hk1 h.symm
      have h2 : ¬ L.toLower req.To = k := fun h => hk2 h.symm
      simp only [mapGet_setBalance, if_neg h1, if_neg h2]


/-! ## C15: requests up to letter case -/

/-- C15: for every registry and every two requests with the same amount whose from fields
have the same lowercase form and whose to fields have the same lowercase form,
`ProcessTransfer` returns the same response and the same error and produces the same final
registry. -/
theorem c15_request_case_insensitive (L : Lowering) (b : Bank) (req1 req2 : TransferRequest)
    (hfrom : L.toLower req1.From = L.toLower req2.From)
    (hto : L.toLower req1.To = L.toLower req2.To)
    (hamount : req1.Amount = req2.Amount) :
    ProcessTransfer L b req1 = ProcessTransfer L b req2 := by
  rw [processTransfer_eq, processTransfer_eq]
  unfold GetAccount
  rw [hfrom, hto, hamount]

/-- C15, witness: `transfer(Mark, Jane, 30)` and `transfer(MARK, jane, 30)` on Mark 100,
Jane 50 both give Mark 70, Jane 80 and the same response. -/
theorem c15_request_case_insensitive_witness :
    ProcessTransfer asciiLowering markJaneBank ⟨"Mark", "Jane", 30⟩ =
      ProcessTransfer asciiLowering markJaneBank ⟨"MARK", "jane", 30⟩ ∧
    ProcessTransfer asciiLowering markJaneBank ⟨"MARK", "jane", 30⟩ =
      some (⟨[("mark", ⟨"Mark", 70⟩), ("jane", ⟨"Jane", 80⟩)]⟩,
        ⟨"Mark", 70, "Jane", 80, "Transfer successful"⟩, none) :=
  ⟨c15_request_case_insensitive asciiLowering markJaneBank ⟨"Mark", "Jane", 30⟩
    ⟨"MARK", "jane", 30⟩ (by decide) (by decide) (by decide), by decide⟩

/-! ## C16: balances after a load -/

/-- Entries of a map after a write. -/
theorem mem_mapSet {m : List (String × Account)} {k : String} {v : Account}
    {p : String × Account} (h : p ∈ mapSet m k v) : p ∈ m ∨ p = (k, v) := by
  induction m with
  | nil =>
    simp only [mapSet, List.mem_singleton] at h
    exact Or.inr h
  | cons q rest ih =>
    obtain ⟨k0, v0⟩ := q
    by_cases h0 : k0 = k
    · simp only [mapSet, h0, if_true, List.mem_cons] at h
      rcases h with h | h
      · exact Or.inr h
      · exact Or.inl (List.mem_cons_of_mem _ h)
    · simp only [mapSet, h0, if_false, List.mem_cons] at h
      rcases h with h | h
      · left; rw [h]; exact List.mem_cons_self _ _
      · rcases ih h with h2 | h2
        · exact Or.inl (List.mem_cons_of_mem _ h2)
        · exact Or.inr h2

/-- C16, counterexample: loading the single record Mark with balance -5 into the empty
registry stores an account whose balance is -5. -/
theorem c16_negative_balance_loaded :
    LoadAccounts asciiLowering ⟨[]⟩ [⟨"Mark", -5⟩] = ⟨[("mark", ⟨"Mark", -5⟩)]⟩ ∧
    IsGoInt (-5) ∧
    ¬ (∀ p ∈ (LoadAccounts asciiLowering ⟨[]⟩ [⟨"Mark", -5⟩]).accounts,
        0 ≤ p.2.Balance) := by
  decide

/-- C16, amended: `LoadAccounts` stores the balance of each record as it is; for every
registry whose balances are non-negative and every sequence of records whose balances are
non-negative, every account stored in the registry after the load has a non-negative
balance. -/
theorem c16_load_keeps_non_negative (L : Lowering) (b : Bank) (records : List Account)
    (hb : ∀ p ∈ b.accounts, 0 ≤ p.2.Balance)
    (hrecords : ∀ acc ∈ records, 0 ≤ acc.Balance) :
    ∀ p ∈ (LoadAccounts L b records).accounts, 0 ≤ p.2.Balance := by
  induction records using List.reverseRecOn with
  | nil => simpa [LoadAccounts] using hb
  | append_singleton pre acc ih =>
    have hpre : ∀ a ∈ pre, 0 ≤ a.Balance :=
      fun a ha => hrecords a (List.mem_append_left _ ha)
    have hacc : 0 ≤ acc.Balance := hrecords acc (by simp)
    rw [LoadAccounts_append_singleton]
    intro p hp
    rcases mem_mapSet hp with h | h
    · exact ih hpre p h
    · rw [h]
      exact hacc

/-- C16, witness: loading Mark 100 and Jane 50 into the empty registry. -/
theorem c16_load_keeps_non_negative_witness :
    LoadAccounts asciiLowering ⟨[]⟩ [⟨"Mark", 100⟩, ⟨"Jane", 50⟩] =
      ⟨[("mark", ⟨"Mark", 100⟩), ("jane", ⟨"Jane", 50⟩)]⟩ ∧
    0 ≤ (("mark", ⟨"Mark", 100⟩) : String × Account).2.Balance ∧
    0 ≤ (("jane", ⟨"Jane", 50⟩) : String × Account).2.Balance :=
  ⟨by decide,
   c16_load_keeps_non_negative asciiLowering ⟨[]⟩ [⟨"Mark", 100⟩, ⟨"Jane", 50⟩]
    (by decide) (by decide) ("mark", ⟨"Mark", 100⟩) (by decide),
   c16_load_keeps_non_negative asciiLowering ⟨[]⟩ [⟨"Mark", 100⟩, ⟨"Jane", 50⟩]
    (by decide) (by decide) ("jane", ⟨"Jane", 50⟩) (by decide)⟩


/-! ## C17: the lookups that follow validation -/

/-- C17: for every registry and every request for which `validateTransferRequest` returns
no error, the two `GetAccount` calls that `ProcessTransfer` then makes on the rewritten
from and to both find an account, the two accounts sit under two different keys of the
registry, and `ProcessTransfer` does not dereference a nil pointer. -/
theorem c17_lookups_after_validation (L : Lowering) (b : Bank) (req req' : TransferRequest)
    (hval : validateTransferRequest L b req = (req', none)) :
    ∃ s r, GetAccount L b req'.From = some s ∧ GetAccount L b req'.To = some r ∧
      (L.toLower req'.From, s) ∈ b.accounts ∧ (L.toLower req'.To, r) ∈ b.accounts ∧
      L.toLower req'.From ≠ L.toLower req'.To ∧
      ProcessTransfer L b req ≠ none := by
  have hpanic : ProcessTransfer L b req ≠ none := by
    rcases processTransfer_cases L b req with ⟨e, he⟩ | ⟨s, r, -, -, -, -, -, hpt⟩
    · rw [he]; simp
    · rw [hpt]; simp
  unfold validateTransferRequest at hval
  simp only at hval
  split_ifs at hval with h1 h2 h3 h4
  all_goals simp only [Prod.mk.injEq, reduceCtorEq, and_false] at hval
  obtain ⟨hreq, -⟩ := hval
  subst hreq
  simp only [Option.isNone_iff_eq_none] at h3 h4
  obtain ⟨s, hs⟩ := Option.ne_none_iff_exists'.mp h3
  obtain ⟨r, hr⟩ := Option.ne_none_iff_exists'.mp h4
  refine ⟨s, r, hs, hr, mem_of_mapGet hs, mem_of_mapGet hr, ?_, hpanic⟩
  simp only [L.idem]
  exact h1

/-- C17, witness: `transfer(Mark, Jane, 30)` on Mark 100, Jane 50; validation rewrites the
request to `mark`, `jane`. -/
theorem c17_lookups_after_validation_witness :
    ∃ s r, GetAccount asciiLowering markJaneBank "mark" = some s ∧
      GetAccount asciiLowering markJaneBank "jane" = some r ∧
      (asciiLowering.toLower "mark", s) ∈ markJaneBank.accounts ∧
      (asciiLowering.toLower "jane", r) ∈ markJaneBank.accounts ∧
      asciiLowering.toLower "mark" ≠ asciiLowering.toLower "jane" ∧
      ProcessTransfer asciiLowering markJaneBank ⟨"Mark", "Jane", 30⟩ ≠ none :=
  c17_lookups_after_validation asciiLowering markJaneBank ⟨"Mark", "Jane", 30⟩
    ⟨"mark", "jane", 30⟩ (by decide)


/-! ## C18: two successful transfers in either order -/

/-- A balance write of the old balance plus `d` is the update `Balance += d`. -/
theorem setBalance_eq_addBalance {m : List (String × Account)} {k : String} {a : Account}
    (d : Int) (h : mapGet m k = some a) :
    setBalance m k (wrapInt (a.Balance + d)) = addBalance m k d := by
  induction m with
  | nil => rfl
  | cons p rest ih =>
    obtain ⟨k0, v0⟩ := p
    by_cases h0 : k0 = k
    · simp only [mapGet, h0, if_true, Option.some.injEq] at h
      subst h
      simp only [setBalance, addBalance, h0, if_true]
    · simp only [mapGet, h0, if_false] at h
      simp only [setBalance, addBalance, h0, if_false, ih h]

theorem mapGet_addBalance_of_ne (m : List (String × Account)) {k k' : String} (d : Int)
    (hne : k ≠ k') : mapGet (addBalance m k d) k' = mapGet m k' := by
  induction m with
  | nil => rfl
  | cons p rest ih =>
    obtain ⟨k0, v0⟩ := p
    by_cases h0 : k0 = k
    · subst h0
      simp only [addBalance, mapGet, if_true, if_neg hne]
    · by_cases h1 : k0 = k'
      · subst h1
        simp only [addBalance, mapGet, if_neg h0, if_true]
      · simp only [addBalance, mapGet, if_neg h0, if_neg h1, ih]

theorem wrapInt_add_comm (x d1 d2 : Int) :
    wrapInt (wrapInt (x + d1) + d2) = wrapInt (wrapInt (x + d2) + d1) := by
  unfold wrapInt
  omega

/-- Two updates `Balance += d`, on the same account or on two accounts, commute. -/
theorem addBalance_comm (m : List (String × Account)) (k1 k2 : String) (d1 d2 : Int) :
    addBalance (addBalance m k1 d1) k2 d2 = addBalance (addBalance m k2 d2) k1 d1 := by
  induction m with
  | nil => rfl
  | cons p rest ih =>
    obtain ⟨k0, v0⟩ := p
    by_cases h1 : k0 = k1
    · subst h1
      by_cases h2 : k0 = k2
      · subst h2
        simp only [addBalance, if_true, wrapInt_add_comm v0.Balance d1 d2]
      · simp only [addBalance, if_true, if_neg h2]
    · by_cases h2 : k0 = k2
      · subst h2
        simp only [addBalance, if_true, if_neg h1]
      · simp only [addBalance, if_neg h1, if_neg h2, ih]

/-- The registry after a transfer that went through: the amount taken from the sender's
entry and added to the receiver's. -/
theorem processTransfer_ok_accounts {L : Lowering} {b b' : Bank} {req : TransferRequest}
    {resp : TransferResponse} (hok : ProcessTransfer L b req = some (b', resp, none)) :
    b'.accounts =
      addBalance (addBalance b.accounts (L.toLower req.From) (-req.Amount))
        (L.toLower req.To) req.Amount := by
  rcases processTransfer_cases L b req with ⟨e, he⟩ | ⟨s, r, hne, -, hs, hr, -, hpt⟩
  · rw [he] at hok
    simp at hok
  · rw [hpt] at hok
    simp only [Option.some.injEq, Prod.mk.injEq, and_true] at hok
    obtain ⟨hb, -⟩ := hok
    subst hb
    unfold GetAccount at hs hr
    have h1 : setBalance b.accounts (L.toLower req.From) (wrapInt (s.Balance - req.Amount)) =
        addBalance b.accounts (L.toLower req.From) (-req.Amount) := by
      rw [← setBalance_eq_addBalance (-req.Amount) hs, Int.sub_eq_add_neg]
    have h2 : mapGet (addBalance b.accounts (L.toLower req.From) (-req.Amount))
        (L.toLower req.To) = some r := by
      rw [mapGet_addBalance_of_ne _ _ hne]
      exact hr
    simp only [h1, setBalance_eq_addBalance req.Amount h2]

/-- C18: for every registry and every two requests, if both calls succeed when executed
as the first then the second, and both calls succeed when executed as the second then the
first, then the final registry is the same in both orders. -/
theorem c18_successful_transfers_commute (L : Lowering) (b b1 b12 b2 b21 : Bank)
    (req1 req2 : TransferRequest) (resp1 resp12 resp2 resp21 : TransferResponse)
    (h1 : ProcessTransfer L b req1 = some (b1, resp1, none))
    (h12 : ProcessTransfer L b1 req2 = some (b12, resp12, none))
    (h2 : ProcessTransfer L b req2 = some (b2, resp2, none))
    (h21 : ProcessTransfer L b2 req1 = some (b21, resp21, none)) :
    b12 = b21 := by
  have e1 := processTransfer_ok_accounts h1
  have e12 := processTransfer_ok_accounts h12
  have e2 := processTransfer_ok_accounts h2
  have e21 := processTransfer_ok_accounts h21
  rw [e1] at e12
  rw [e2] at e21
  cases b12 with
  | mk acc12 =>
    cases b21 with
    | mk acc21 =>
      simp only at e12 e21
      rw [e12, e21]
      congr 1
      rw [addBalance_comm _ (L.toLower req1.To) (L.toLower req2.From),
        addBalance_comm _ (L.toLower req1.From) (L.toLower req2.From),
        addBalance_comm _ (L.toLower req1.To) (L.toLower req2.To),
        addBalance_comm (addBalance b.accounts (L.toLower req2.From) (-req2.Amount))
          (L.toLower req1.From) (L.toLower req2.To)]


/-- C18, witness: `transfer(Mark, Jane, 20)` and `transfer(Jane, Mark, 30)` on Mark 100,
Jane 50 end with Mark 110, Jane 40 in either order. -/
theorem c18_successful_transfers_commute_witness :
    (processAll asciiLowering markJaneBank
        [⟨"Mark", "Jane", 20⟩, ⟨"Jane", "Mark", 30⟩]).map
        (fun out => (out.1, out.2.map Prod.snd)) =
      some (⟨[("mark", ⟨"Mark", 110⟩), ("jane", ⟨"Jane", 40⟩)]⟩, [none, none]) ∧
    (processAll asciiLowering markJaneBank
        [⟨"Jane", "Mark", 30⟩, ⟨"Mark", "Jane", 20⟩]).map
        (fun out => (out.1, out.2.map Prod.snd)) =
      some (⟨[("mark", ⟨"Mark", 110⟩), ("jane", ⟨"Jane", 40⟩)]⟩, [none, none]) ∧
    (⟨[("mark", ⟨"Mark", 110⟩), ("jane", ⟨"Jane", 40⟩)]⟩ : Bank) =
      ⟨[("mark", ⟨"Mark", 110⟩), ("jane", ⟨"Jane", 40⟩)]⟩ :=
  ⟨by decide, by decide,
   c18_successful_transfers_commute asciiLowering markJaneBank
    ⟨[("mark", ⟨"Mark", 80⟩), ("jane", ⟨"Jane", 70⟩)]⟩
    ⟨[("mark", ⟨"Mark", 110⟩), ("jane", ⟨"Jane", 40⟩)]⟩
    ⟨[("mark", ⟨"Mark", 130⟩), ("jane", ⟨"Jane", 20⟩)]⟩
    ⟨[("mark", ⟨"Mark", 110⟩), ("jane", ⟨"Jane", 40⟩)]⟩
    ⟨"Mark", "Jane", 20⟩ ⟨"Jane", "Mark", 30⟩
    ⟨"Mark", 80, "Jane", 70, "Transfer successful"⟩
    ⟨"Jane", 40, "Mark", 110, "Transfer successful"⟩
    ⟨"Jane", 20, "Mark", 130, "Transfer successful"⟩
    ⟨"Mark", 110, "Jane", 40, "Transfer successful"⟩
    (by decide) (by decide) (by decide) (by decide)⟩

/-! ## C19: where the balance is checked -/

/-- C19, counterexample: `transfer(Jane, Adam, 100)` on Jane 50, Adam 0 has distinct
lowercased names, a positive amount, two existing accounts and a sender balance below the
amount, and `validateTransferRequest` returns no error on it. -/
theorem c19_validation_passes_without_funds :
    asciiLowering.toLower "Jane" ≠ asciiLowering.toLower "Adam" ∧
    (0 : Int) < 100 ∧
    GetAccount asciiLowering janeAdamBank "Jane" = some ⟨"Jane", 50⟩ ∧
    GetAccount asciiLowering janeAdamBank "Adam" = some ⟨"Adam", 0⟩ ∧
    (50 : Int) < 100 ∧
    validateTransferRequest asciiLowering janeAdamBank ⟨"Jane", "Adam", 100⟩ =
      (⟨"jane", "adam", 100⟩, none) := by
  decide

/-- C19, amended: the sender's balance is checked once, by `ProcessTransfer` after
validation; for every registry and every request with distinct lowercased from and to, a
positive amount, both accounts existing and a sender balance below the amount,
`validateTransferRequest` returns no error, and `ProcessTransfer` returns "insufficient
funds" from its own check, with the registry as it was. -/
theorem c19_single_balance_check (L : Lowering) (b : Bank) (req : TransferRequest)
    (s r : Account)
    (hne : L.toLower req.From ≠ L.toLower req.To) (hpos : 0 < req.Amount)
    (hs : GetAccount L b req.From = some s) (hr : GetAccount L b req.To = some r)
    (hlt : s.Balance < req.Amount) :
    validateTransferRequest L b req =
      ({ From := L.toLower req.From, To := L.toLower req.To, Amount := req.Amount }, none) ∧
    ProcessTransfer L b req = some (b, zeroResponse, some "insufficient funds") := by
  have hnotle : ¬ req.Amount ≤ 0 := by omega
  constructor
  · unfold validateTransferRequest
    simp [hne, hnotle, GetAccount_toLower, hs, hr]
  · rw [processTransfer_eq, if_neg hne, if_neg hnotle, hs, hr]
    simp only [if_pos hlt]

/-- C19, witness: `transfer(Jane, Adam, 100)` on Jane 50, Adam 0. -/
theorem c19_single_balance_check_witness :
    validateTransferRequest asciiLowering janeAdamBank ⟨"Jane", "Adam", 100⟩ =
      (⟨asciiLowering.toLower "Jane", asciiLowering.toLower "Adam", 100⟩, none) ∧
    ProcessTransfer asciiLowering janeAdamBank ⟨"Jane", "Adam", 100⟩ =
      some (janeAdamBank, zeroResponse, some "insufficient funds") :=
  c19_single_balance_check asciiLowering janeAdamBank ⟨"Jane", "Adam", 100⟩ ⟨"Jane", 50⟩
    ⟨"Adam", 0⟩ (by decide) (by decide) (by decide) (by decide) (by decide)

end GoBank
